import Mathlib

/-!
Verification of the glTF/GLB asset-optimization pipeline of the
`vite-plugin-gltf-optimizer` package (files `compression-mapper.ts`,
`preset-manager.ts`, `gltf-processor.ts`, `index.ts`).

Shallow embedding conventions:
* JavaScript numbers are modelled as exact rationals (`ℚ`); where `NaN`
  is observable (the options records passed through `validateOptions`)
  we use `JsNum`, a rational extended with a `nan` point.  `Math.round`
  is `jsRound q = ⌊q + 1/2⌋`, which agrees with JS rounding on every
  finite input relevant here.
* Byte buffers are `List Nat`; strings that undergo suffix tests and
  path surgery (URIs, filenames) are `List Char` so that list lemmas
  apply; `"lit".data` injects string literals.
* Calls into external collaborators (the `gltf-transform` library,
  `JSON.parse`, the filesystem) are modelled as explicit fallible
  parameters (`Except`/`Option`-valued functions); the code of this
  repository around them is translated directly.
-/

/-- JS-number model for option fields where `NaN` is observable:
either `NaN` or a finite number (an exact rational). -/
inductive JsNum where
  | nan : JsNum
  | num (q : ℚ) : JsNum
  deriving DecidableEq

/-- Model of JavaScript `Math.round` on finite numbers: round half up. -/
def jsRound (q : ℚ) : ℤ := ⌊q + 1/2⌋

/-- Model of the clamping idiom `Math.max(0, Math.min(1, x))` used by every
`CompressionMapper` entry point. -/
def clamp01 (q : ℚ) : ℚ := max 0 (min 1 q)

/-- Quantization bit depths returned by `CompressionMapper.toQuantizationBits`
(`compression-mapper.ts`). -/
structure QuantizationBits where
  quantizePosition : ℤ
  quantizeNormal : ℤ
  quantizeTexcoord : ℤ
  quantizeColor : ℤ
  quantizeWeight : ℤ
  quantizeGeneric : ℤ
  deriving DecidableEq

/-- `CompressionMapper.toQuantizationBits(precision)`: clamp the 0–1 precision,
then `10 + round(p*6)` position bits, `8 + round(p*2)` normal bits,
`10 + round(p*2)` texcoord/generic bits, color and weight fixed at 8. -/
def toQuantizationBits (precision : ℚ) : QuantizationBits :=
  let p := clamp01 precision
  { quantizePosition := 10 + jsRound (p * 6)
    quantizeNormal := 8 + jsRound (p * 2)
    quantizeTexcoord := 10 + jsRound (p * 2)
    quantizeColor := 8
    quantizeWeight := 8
    quantizeGeneric := 10 + jsRound (p * 2) }

/-- Draco compression method (`'edgebreaker' | 'sequential'`). -/
inductive DracoMethod where
  | edgebreaker : DracoMethod
  | sequential : DracoMethod
  deriving DecidableEq

/-- Per-attribute Draco quantization bits (`DracoParams.quantizationBits`). -/
structure DracoQuantizationBits where
  POSITION : ℤ
  NORMAL : ℤ
  TEXCOORD_0 : ℤ
  deriving DecidableEq

/-- Draco compression parameters (`types.ts` interface `DracoParams`). -/
structure DracoParams where
  method : DracoMethod
  encodeSpeed : ℤ
  decodeSpeed : ℤ
  quantizationBits : DracoQuantizationBits
  deriving DecidableEq

/-- `CompressionMapper.toDracoParams(quality, speed, precision)`:
clamp all inputs, pick `edgebreaker` when `quality > 0.5`, linear rescale of
speeds to 0–10, and position/normal/texcoord bit depths as in the source. -/
def toDracoParams (quality speed precision : ℚ) : DracoParams :=
  let q := clamp01 quality
  let s := clamp01 speed
  let p := clamp01 precision
  { method := if 1/2 < q then DracoMethod.edgebreaker else DracoMethod.sequential
    encodeSpeed := jsRound (s * 10)
    decodeSpeed := jsRound (q * 10)
    quantizationBits :=
      { POSITION := 10 + jsRound (p * 6)
        NORMAL := 8 + jsRound (p * 2)
        TEXCOORD_0 := 10 + jsRound (p * 2) } }

/-- Meshopt aggressiveness level (`'medium' | 'high'`; high = more compression). -/
inductive MeshoptLevel where
  | medium : MeshoptLevel
  | high : MeshoptLevel
  deriving DecidableEq

/-- Meshopt compression parameters (`types.ts` interface `MeshoptParams`). -/
structure MeshoptParams where
  level : MeshoptLevel
  deriving DecidableEq

/-- `CompressionMapper.toMeshoptParams(quality)`: `medium` when
`quality > 0.6`, else `high`. -/
def toMeshoptParams (quality : ℚ) : MeshoptParams :=
  { level := if 3/5 < clamp01 quality then MeshoptLevel.medium else MeshoptLevel.high }

/-- Basis-universal encoding family (the `mode` field of
`TextureCompressionParams`). -/
inductive BasisMode where
  | etc1s : BasisMode
  | uastc : BasisMode
  deriving DecidableEq

/-- Texture compression parameters (`types.ts`); the optional slot pattern is
omitted as it does not feed any verified computation. -/
structure TextureCompressionParams where
  mode : BasisMode
  quality : ℤ
  deriving DecidableEq

/-- `CompressionMapper.toETC1SParams(quality)`: quality `round(q*255)`,
range 0–255, higher is better. -/
def toETC1SParams (quality : ℚ) : TextureCompressionParams :=
  { mode := BasisMode.etc1s, quality := jsRound (clamp01 quality * 255) }

/-- `CompressionMapper.toUASTCParams(quality)`: level `round((1-q)*4)`,
range 0–4, inverted (0 is the best level). -/
def toUASTCParams (quality : ℚ) : TextureCompressionParams :=
  { mode := BasisMode.uastc, quality := jsRound ((1 - clamp01 quality) * 4) }

/-- Geometry compression selector (`types.ts` type `GeometryCompression`);
the source value `false` is the constructor `off`. -/
inductive GeometryCompression where
  | quantize : GeometryCompression
  | meshopt : GeometryCompression
  | draco : GeometryCompression
  | both : GeometryCompression
  | off : GeometryCompression
  deriving DecidableEq

/-- Texture compression mode (`types.ts` type `TextureCompressionMode`). -/
inductive TextureCompressionMode where
  | auto : TextureCompressionMode
  | etc1s : TextureCompressionMode
  | uastc : TextureCompressionMode
  | mixed : TextureCompressionMode
  | manual : TextureCompressionMode
  deriving DecidableEq

/-- Preset optimization level (`types.ts` type `OptimizationLevel`). -/
inductive OptimizationLevel where
  | light : OptimizationLevel
  | medium : OptimizationLevel
  | aggressive : OptimizationLevel
  deriving DecidableEq

/-- Regex values are carried opaquely by their source text; the pipeline
decisions verified here never evaluate them. -/
abbrev Pattern : Type := String

/-- Partial geometry options (`types.ts` interface `GeometryOptions`):
every field may be `undefined`. -/
structure GeometryOptions where
  compress : Option GeometryCompression := none
  quality : Option JsNum := none
  speed : Option JsNum := none
  precision : Option JsNum := none
  deriving DecidableEq

/-- Partial texture options (`types.ts` interface `TextureOptions`). -/
structure TextureOptions where
  mode : Option TextureCompressionMode := none
  quality : Option JsNum := none
  maxSize : Option JsNum := none
  etc1sPatterns : Option (List Pattern) := none
  uastcPatterns : Option (List Pattern) := none
  deriving DecidableEq

/-- Partial plugin options (`types.ts` interface `GLTFOptimizerOptions`).
The source fields `include`/`exclude` are named `includePat`/`excludePat`
because `include` is reserved in Lean. -/
structure GLTFOptimizerOptions where
  level : Option OptimizationLevel := none
  includePat : Option Pattern := none
  excludePat : Option Pattern := none
  verbose : Option Bool := none
  geometry : Option GeometryOptions := none
  textures : Option TextureOptions := none
  deriving DecidableEq

/-- Fully-populated geometry options (the `Required<GeometryOptions>` part of
`ProcessedOptions`). -/
structure GeometryOptionsR where
  compress : GeometryCompression
  quality : JsNum
  speed : JsNum
  precision : JsNum
  deriving DecidableEq

/-- Fully-populated texture options (the `Required<TextureOptions>` part of
`ProcessedOptions`). -/
structure TextureOptionsR where
  mode : TextureCompressionMode
  quality : JsNum
  maxSize : JsNum
  etc1sPatterns : List Pattern
  uastcPatterns : List Pattern
  deriving DecidableEq

/-- Fully-populated options (`types.ts` interface `ProcessedOptions`);
`exclude` stays optional in the source (`undefined` is a legal resolved
value), hence `Option Pattern` here. -/
structure ProcessedOptions where
  level : OptimizationLevel
  includePat : Pattern
  excludePat : Option Pattern
  verbose : Bool
  geometry : GeometryOptionsR
  textures : TextureOptionsR
  deriving DecidableEq

/-- `PresetManager.getPreset(level)` (`preset-manager.ts`): the three fixed
tiers; each returns a partial `GLTFOptimizerOptions` whose geometry and
texture groups are fully specified and whose other fields are absent. -/
def getPreset : OptimizationLevel → GLTFOptimizerOptions
  | OptimizationLevel.light =>
    { geometry := some
        { compress := some GeometryCompression.quantize
          quality := some (JsNum.num (9/10))
          precision := some (JsNum.num (19/20))
          speed := some (JsNum.num (4/5)) }
      textures := some
        { mode := some TextureCompressionMode.auto
          quality := some (JsNum.num (17/20))
          maxSize := some (JsNum.num 2048) } }
  | OptimizationLevel.medium =>
    { geometry := some
        { compress := some GeometryCompression.meshopt
          quality := some (JsNum.num (3/4))
          precision := some (JsNum.num (4/5))
          speed := some (JsNum.num (1/2)) }
      textures := some
        { mode := some TextureCompressionMode.auto
          quality := some (JsNum.num (3/4))
          maxSize := some (JsNum.num 1024) } }
  | OptimizationLevel.aggressive =>
    { geometry := some
        { compress := some GeometryCompression.draco
          quality := some (JsNum.num (1/2))
          precision := some (JsNum.num (3/5))
          speed := some (JsNum.num (3/10)) }
      textures := some
        { mode := some TextureCompressionMode.auto
          quality := some (JsNum.num (11/20))
          maxSize := some (JsNum.num 512) } }

/-- Built-in base defaults (`baseDefaults` in
`PresetManager.processOptions`). -/
def baseDefaults : ProcessedOptions :=
  { level := OptimizationLevel.medium
    includePat := "\\.(gltf|glb)$"
    excludePat := none
    verbose := false
    geometry :=
      { compress := GeometryCompression.meshopt
        quality := JsNum.num (3/4)
        speed := JsNum.num (1/2)
        precision := JsNum.num (4/5) }
    textures :=
      { mode := TextureCompressionMode.auto
        quality := JsNum.num (3/4)
        maxSize := JsNum.num 1024
        etc1sPatterns := []
        uastcPatterns := [] } }

/-- Three-layer resolution of one leaf field, the effect of
`PresetManager.deepMerge(baseDefaults, presetConfig, options)` at that leaf:
`undefined` never overrides, later layers win. -/
def mergeField {α : Type} (base : α) (preset user : Option α) : α :=
  (user <|> preset).getD base

/-- `PresetManager.processOptions(options)` (`preset-manager.ts`):
`baseDefaults < getPreset(options.level) < options`, merged per field
(`deepMerge` instantiated at the fixed option shape; nested groups merge
recursively, arrays and regexes replace wholesale). -/
def processOptions (options : GLTFOptimizerOptions) : ProcessedOptions :=
  let presetConfig : GLTFOptimizerOptions :=
    match options.level with
    | some lvl => getPreset lvl
    | none => {}
  let pg := presetConfig.geometry.getD {}
  let ug := options.geometry.getD {}
  let pt := presetConfig.textures.getD {}
  let ut := options.textures.getD {}
  { level := mergeField baseDefaults.level presetConfig.level options.level
    includePat := mergeField baseDefaults.includePat presetConfig.includePat options.includePat
    excludePat := options.excludePat <|> presetConfig.excludePat
    verbose := mergeField baseDefaults.verbose presetConfig.verbose options.verbose
    geometry :=
      { compress := mergeField baseDefaults.geometry.compress pg.compress ug.compress
        quality := mergeField baseDefaults.geometry.quality pg.quality ug.quality
        speed := mergeField baseDefaults.geometry.speed pg.speed ug.speed
        precision := mergeField baseDefaults.geometry.precision pg.precision ug.precision }
    textures :=
      { mode := mergeField baseDefaults.textures.mode pt.mode ut.mode
        quality := mergeField baseDefaults.textures.quality pt.quality ut.quality
        maxSize := mergeField baseDefaults.textures.maxSize pt.maxSize ut.maxSize
        etc1sPatterns := mergeField baseDefaults.textures.etc1sPatterns pt.etc1sPatterns ut.etc1sPatterns
        uastcPatterns := mergeField baseDefaults.textures.uastcPatterns pt.uastcPatterns ut.uastcPatterns } }

/-- Validity test of `PresetManager.validateOptions` for the 0–1 fields:
`x < 0 || x > 1 || isNaN(x)` (with JS comparison semantics, under which
every comparison against `NaN` is false and `isNaN(NaN)` is true). -/
def invalid01 : JsNum → Bool
  | JsNum.nan => true
  | JsNum.num q => decide (q < 0) || decide (1 < q)

/-- Validity test for `textures.maxSize`:
`maxSize <= 0 || !Number.isInteger(maxSize)`. -/
def invalidMaxSize : JsNum → Bool
  | JsNum.nan => true
  | JsNum.num q => decide (q ≤ 0) || !(decide (q.den = 1))

/-- Reset-on-violation step for a 0–1 field: keep a valid value, replace an
invalid one by the documented default. -/
def fixNum01 (x : JsNum) (dflt : ℚ) : JsNum :=
  if invalid01 x then JsNum.num dflt else x

/-- Reset-on-violation step for `maxSize` (default 1024). -/
def fixMaxSize (x : JsNum) : JsNum :=
  if invalidMaxSize x then JsNum.num 1024 else x

/-- `PresetManager.validateOptions(options)` (`preset-manager.ts`): each of
the five numeric fields is range-checked and reset to its documented default
on violation (0.75 / 0.5 / 0.8 / 0.75 / 1024); every other field is left
untouched and the same record is returned.  The accompanying warning strings
are only logged (I/O) and are not modelled. -/
def validateOptions (o : ProcessedOptions) : ProcessedOptions :=
  { level := o.level
    includePat := o.includePat
    excludePat := o.excludePat
    verbose := o.verbose
    geometry :=
      { compress := o.geometry.compress
        quality := fixNum01 o.geometry.quality (3/4)
        speed := fixNum01 o.geometry.speed (1/2)
        precision := fixNum01 o.geometry.precision (4/5) }
    textures :=
      { mode := o.textures.mode
        quality := fixNum01 o.textures.quality (3/4)
        maxSize := fixMaxSize o.textures.maxSize
        etc1sPatterns := o.textures.etc1sPatterns
        uastcPatterns := o.textures.uastcPatterns } }

/-- The property that a `JsNum` is a finite number inside `[0,1]`. -/
def validJs01 (x : JsNum) : Prop :=
  ∃ q : ℚ, x = JsNum.num q ∧ 0 ≤ q ∧ q ≤ 1

/-- The property that a `JsNum` is a finite positive integer. -/
def validPosInt (x : JsNum) : Prop :=
  ∃ q : ℚ, x = JsNum.num q ∧ 0 < q ∧ q.den = 1

lemma fixNum01_valid (x : JsNum) (d : ℚ) (hd0 : 0 ≤ d) (hd1 : d ≤ 1) :
    validJs01 (fixNum01 x d) := by
  unfold fixNum01
  by_cases h : invalid01 x = true
  · simp only [h, if_true]
    exact ⟨d, rfl, hd0, hd1⟩
  · simp only [h, if_false]
    cases x with
    | nan => simp [invalid01] at h
    | num q =>
      simp only [invalid01, Bool.or_eq_true, decide_eq_true_eq] at h
      push_neg at h
      exact ⟨q, rfl, h.1, h.2⟩

lemma fixMaxSize_valid (x : JsNum) : validPosInt (fixMaxSize x) := by
  unfold fixMaxSize
  by_cases h : invalidMaxSize x = true
  · simp only [h, if_true]
    exact ⟨1024, rfl, by norm_num, by norm_num⟩
  · simp only [h, if_false]
    cases x with
    | nan => simp [invalidMaxSize] at h
    | num q =>
      simp only [invalidMaxSize, Bool.or_eq_true, decide_eq_true_eq,
        Bool.not_eq_true', decide_eq_false_iff_not] at h
      push_neg at h
      exact ⟨q, rfl, h.1, by simpa using h.2⟩

lemma invalid01_of_valid {x : JsNum} (h : validJs01 x) : invalid01 x = false := by
  obtain ⟨q, rfl, h0, h1⟩ := h
  simp [invalid01, not_lt.mpr h0, not_lt.mpr h1]

lemma invalidMaxSize_of_valid {x : JsNum} (h : validPosInt x) :
    invalidMaxSize x = false := by
  obtain ⟨q, rfl, h0, h1⟩ := h
  simp [invalidMaxSize, not_le.mpr h0, h1]

lemma fixNum01_idem (x : JsNum) (d : ℚ) (hd0 : 0 ≤ d) (hd1 : d ≤ 1) :
    fixNum01 (fixNum01 x d) d = fixNum01 x d := by
  have := invalid01_of_valid (fixNum01_valid x d hd0 hd1)
  unfold fixNum01 at this ⊢
  simp [this]

lemma fixMaxSize_idem (x : JsNum) : fixMaxSize (fixMaxSize x) = fixMaxSize x := by
  have := invalidMaxSize_of_valid (fixMaxSize_valid x)
  unfold fixMaxSize at this ⊢
  simp [this]

lemma fixNum01_idem_q34 (x : JsNum) :
    fixNum01 (fixNum01 x (3/4)) (3/4) = fixNum01 x (3/4) :=
  fixNum01_idem x _ (by norm_num) (by norm_num)

lemma fixNum01_idem_q12 (x : JsNum) :
    fixNum01 (fixNum01 x (1/2)) (1/2) = fixNum01 x (1/2) :=
  fixNum01_idem x _ (by norm_num) (by norm_num)

lemma fixNum01_idem_q45 (x : JsNum) :
    fixNum01 (fixNum01 x (4/5)) (4/5) = fixNum01 x (4/5) :=
  fixNum01_idem x _ (by norm_num) (by norm_num)

/-- C2: for every partial options input (empty object, `NaN` or out-of-range
numerics included), `processOptions` followed by `validateOptions` yields a
fully-populated record whose `geometry.quality`, `geometry.speed`,
`geometry.precision` and `textures.quality` lie in `[0,1]` and whose
`textures.maxSize` is a positive integer (both functions are total Lean
functions, hence never throw); each invalid field is reset to its documented
default (0.75 / 0.5 / 0.8 / 0.75 / 1024) and valid fields are kept;
`validateOptions` is idempotent; and it returns the record it was given with
every non-validated field unchanged (the pure rendering of "returns the same
options object"). -/
theorem c2_resolver_total_valid_idempotent :
    ∀ (o : GLTFOptimizerOptions) (p : ProcessedOptions),
      (validJs01 ((validateOptions (processOptions o)).geometry.quality) ∧
        validJs01 ((validateOptions (processOptions o)).geometry.speed) ∧
        validJs01 ((validateOptions (processOptions o)).geometry.precision) ∧
        validJs01 ((validateOptions (processOptions o)).textures.quality) ∧
        validPosInt ((validateOptions (processOptions o)).textures.maxSize)) ∧
      ((validateOptions p).geometry.quality
          = (if invalid01 p.geometry.quality then JsNum.num (3/4) else p.geometry.quality) ∧
        (validateOptions p).geometry.speed
          = (if invalid01 p.geometry.speed then JsNum.num (1/2) else p.geometry.speed) ∧
        (validateOptions p).geometry.precision
          = (if invalid01 p.geometry.precision then JsNum.num (4/5) else p.geometry.precision) ∧
        (validateOptions p).textures.quality
          = (if invalid01 p.textures.quality then JsNum.num (3/4) else p.textures.quality) ∧
        (validateOptions p).textures.maxSize
          = (if invalidMaxSize p.textures.maxSize then JsNum.num 1024 else p.textures.maxSize)) ∧
      validateOptions (validateOptions p) = validateOptions p ∧
      ((validateOptions p).level = p.level ∧
        (validateOptions p).includePat = p.includePat ∧
        (validateOptions p).excludePat = p.excludePat ∧
        (validateOptions p).verbose = p.verbose ∧
        (validateOptions p).geometry.compress = p.geometry.compress ∧
        (validateOptions p).textures.mode = p.textures.mode ∧
        (validateOptions p).textures.etc1sPatterns = p.textures.etc1sPatterns ∧
        (validateOptions p).textures.uastcPatterns = p.textures.uastcPatterns) := by
  intro o p
  refine ⟨⟨?_, ?_, ?_, ?_, ?_⟩, ⟨rfl, rfl, rfl, rfl, rfl⟩, ?_, rfl, rfl, rfl, rfl, rfl, rfl, rfl, rfl⟩
  · exact fixNum01_valid _ (3/4) (by norm_num) (by norm_num)
  · exact fixNum01_valid _ (1/2) (by norm_num) (by norm_num)
  · exact fixNum01_valid _ (4/5) (by norm_num) (by norm_num)
  · exact fixNum01_valid _ (3/4) (by norm_num) (by norm_num)
  · exact fixMaxSize_valid _
  · simp only [validateOptions, fixNum01_idem_q34, fixNum01_idem_q12,
      fixNum01_idem_q45, fixMaxSize_idem]

/-- C10: resolving the empty options object and resolving `{level: 'medium'}`
produce field-for-field identical records — the built-in base defaults
coincide with the `medium` preset. -/
theorem c10_empty_options_equal_medium_preset :
    processOptions {} = processOptions { level := some OptimizationLevel.medium } := rfl

lemma jsRound_mono {a b : ℚ} (h : a ≤ b) : jsRound a ≤ jsRound b :=
  Int.floor_mono (by linarith)

lemma jsRound_nonneg {a : ℚ} (h : 0 ≤ a) : 0 ≤ jsRound a :=
  Int.le_floor.mpr (by push_cast; linarith)

lemma jsRound_le {a : ℚ} {n : ℤ} (h : a + 1/2 < n + 1) : jsRound a ≤ n := by
  unfold jsRound
  have : ⌊a + 1/2⌋ < n + 1 := Int.floor_lt.mpr (by push_cast; linarith)
  omega

lemma clamp01_nonneg (q : ℚ) : 0 ≤ clamp01 q := le_max_left 0 _

lemma clamp01_le_one (q : ℚ) : clamp01 q ≤ 1 :=
  max_le (by norm_num) (min_le_left 1 q)

lemma clamp01_mono {a b : ℚ} (h : a ≤ b) : clamp01 a ≤ clamp01 b :=
  max_le_max le_rfl (min_le_min le_rfl h)

lemma jsRound_scale_bounds (q : ℚ) (c : ℚ) (hc : 0 ≤ c) :
    0 ≤ jsRound (clamp01 q * c) ∧ jsRound (clamp01 q * c) ≤ ⌈c⌉ := by
  constructor
  · exact jsRound_nonneg (mul_nonneg (clamp01_nonneg q) hc)
  · apply jsRound_le
    have h1 : clamp01 q * c ≤ c := by
      nlinarith [clamp01_le_one q, clamp01_nonneg q]
    have h2 : c ≤ (⌈c⌉ : ℚ) := Int.le_ceil c
    linarith

/-- C7: the `toQuantizationBits` bit depths for position, normal and texcoord
are monotone non-decreasing in the precision input (which is clamped to
`[0,1]`, the function being total), and for every input they lie within
10–16, 8–10 and 10–12 respectively, while the color and weight depths are
fixed at 8. -/
theorem c7_quantization_bits_monotone_bounded :
    (∀ p q : ℚ, p ≤ q →
      (toQuantizationBits p).quantizePosition ≤ (toQuantizationBits q).quantizePosition ∧
      (toQuantizationBits p).quantizeNormal ≤ (toQuantizationBits q).quantizeNormal ∧
      (toQuantizationBits p).quantizeTexcoord ≤ (toQuantizationBits q).quantizeTexcoord) ∧
    (∀ p : ℚ,
      10 ≤ (toQuantizationBits p).quantizePosition ∧
      (toQuantizationBits p).quantizePosition ≤ 16 ∧
      8 ≤ (toQuantizationBits p).quantizeNormal ∧
      (toQuantizationBits p).quantizeNormal ≤ 10 ∧
      10 ≤ (toQuantizationBits p).quantizeTexcoord ∧
      (toQuantizationBits p).quantizeTexcoord ≤ 12 ∧
      (toQuantizationBits p).quantizeColor = 8 ∧
      (toQuantizationBits p).quantizeWeight = 8) := by
  constructor
  · intro p q h
    have hc := clamp01_mono h
    refine ⟨?_, ?_, ?_⟩ <;>
      simp only [toQuantizationBits] <;>
      exact add_le_add_left (jsRound_mono (by nlinarith)) _
  · intro p
    have h6 := jsRound_scale_bounds p 6 (by norm_num)
    have h2 := jsRound_scale_bounds p 2 (by norm_num)
    have c6 : (⌈(6 : ℚ)⌉ : ℤ) = 6 := by norm_num
    have c2 : (⌈(2 : ℚ)⌉ : ℤ) = 2 := by norm_num
    rw [c6] at h6
    rw [c2] at h2
    simp only [toQuantizationBits]
    refine ⟨by linarith [h6.1], by linarith [h6.2], by linarith [h2.1],
      by linarith [h2.2], by linarith [h2.1], by linarith [h2.2], trivial, trivial⟩

/-- C7 witness: the theorem instantiated at precision 0 ≤ 1 and at 1/2. -/
theorem c7_quantization_bits_witness :
    ((toQuantizationBits 0).quantizePosition ≤ (toQuantizationBits 1).quantizePosition ∧
      (toQuantizationBits 0).quantizeNormal ≤ (toQuantizationBits 1).quantizeNormal ∧
      (toQuantizationBits 0).quantizeTexcoord ≤ (toQuantizationBits 1).quantizeTexcoord) ∧
    (10 ≤ (toQuantizationBits (1/2)).quantizePosition ∧
      (toQuantizationBits (1/2)).quantizePosition ≤ 16 ∧
      8 ≤ (toQuantizationBits (1/2)).quantizeNormal ∧
      (toQuantizationBits (1/2)).quantizeNormal ≤ 10 ∧
      10 ≤ (toQuantizationBits (1/2)).quantizeTexcoord ∧
      (toQuantizationBits (1/2)).quantizeTexcoord ≤ 12 ∧
      (toQuantizationBits (1/2)).quantizeColor = 8 ∧
      (toQuantizationBits (1/2)).quantizeWeight = 8) :=
  ⟨c7_quantization_bits_monotone_bounded.1 0 1 (by norm_num),
    c7_quantization_bits_monotone_bounded.2 (1/2)⟩

/-- Trace alphabet for the geometry-optimization step of
`GLTFProcessor.applyGeometryOptimizations` (`gltf-processor.ts`): one
constructor per `document.transform(...)` step the method can request. -/
inductive GeomTransform where
  | pruneStep : GeomTransform
  | dedupStep : GeomTransform
  | quantizeStep (bits : QuantizationBits) : GeomTransform
  | dracoStep (params : DracoParams) : GeomTransform
  | meshoptStep (params : MeshoptParams) : GeomTransform
  deriving DecidableEq

/-- `GLTFProcessor.applyGeometryOptimizations`, abstracted to the ordered
list of transforms it applies to the document: always `prune` then `dedup`;
quantization whenever `compress !== false`; then the mode branch.  In the
source, the `meshopt` transform calls are commented out ("meshopt requires
encoder in newer versions, skipping for now"): the `meshopt` case computes
`toMeshoptParams` only for a verbose log, and the `both` case applies only
the draco transform. -/
def geometryTransformTrace (compress : GeometryCompression)
    (quality speed precision : ℚ) : List GeomTransform :=
  [GeomTransform.pruneStep, GeomTransform.dedupStep]
    ++ (match compress with
        | GeometryCompression.off => []
        | _ => [GeomTransform.quantizeStep (toQuantizationBits precision)])
    ++ (match compress with
        | GeometryCompression.meshopt => []
        | GeometryCompression.draco =>
            [GeomTransform.dracoStep (toDracoParams quality speed precision)]
        | GeometryCompression.both =>
            [GeomTransform.dracoStep (toDracoParams quality speed precision)]
        | GeometryCompression.quantize => []
        | GeometryCompression.off => [])

/-- Test whether a trace contains any meshopt transform application. -/
def hasMeshoptStep (ts : List GeomTransform) : Bool :=
  ts.any fun t =>
    match t with
    | GeomTransform.meshoptStep _ => true
    | _ => false

/-- C4 counterexample: with the default numeric options, neither the
`meshopt` mode nor the `both` mode applies any meshopt transform to the
document — the claim that the `toMeshoptParams` level is applied (and that
`both` performs meshopt preprocessing before draco) is false of the code,
whose meshopt transform invocations are commented out. -/
theorem c4_counterexample_no_meshopt_applied :
    hasMeshoptStep (geometryTransformTrace GeometryCompression.meshopt (3/4) (1/2) (4/5))
        = false ∧
      hasMeshoptStep (geometryTransformTrace GeometryCompression.both (3/4) (1/2) (4/5))
        = false := ⟨rfl, rfl⟩

/-- C4 amended: in `meshopt` mode the geometry step applies only cleanup and
quantization (the meshopt level is computed but no meshopt transform runs),
and in `both` mode it applies cleanup, quantization and then only the draco
(graph-compression) encoding — no meshopt preprocessing. -/
theorem c4_amended_meshopt_skipped :
    ∀ quality speed precision : ℚ,
      geometryTransformTrace GeometryCompression.meshopt quality speed precision
          = [GeomTransform.pruneStep, GeomTransform.dedupStep,
              GeomTransform.quantizeStep (toQuantizationBits precision)] ∧
        geometryTransformTrace GeometryCompression.both quality speed precision
          = [GeomTransform.pruneStep, GeomTransform.dedupStep,
              GeomTransform.quantizeStep (toQuantizationBits precision),
              GeomTransform.dracoStep (toDracoParams quality speed precision)] :=
  fun _ _ _ => ⟨rfl, rfl⟩

/-- Lowercasing of a character string, modelling `String.prototype.toLowerCase`
on the ASCII names and URIs this pipeline manipulates. -/
def lowerL (s : List Char) : List Char := s.map Char.toLower

/-- Environment of fallible external calls made by
`GLTFProcessor.processBuffer` (`gltf-processor.ts`): `JSON.parse`, the
`gltf-transform` reader/writer, and the two optimization passes (whose own
failure modes arise inside `document.transform`).  `Except.error` models a
thrown exception. -/
structure GLTFProcessorCalls (J Doc : Type) where
  parseJSON : List Nat → Except String J
  readJSON : J → Except String Doc
  readBinary : List Nat → Except String Doc
  applyGeometryOptimizations : Doc → Except String Doc
  applyTextureOptimizations : Doc → Except String Doc
  writeBinary : Doc → Except String (List Nat)

/-- Body of the `try` block of `GLTFProcessor.processBuffer`: dispatch on the
lowercased filename extension (`.gltf` parses the buffer as JSON with an
empty resource map, `.glb` reads it as binary, anything else throws
`Unsupported file format`), then optimize and serialize to binary. -/
def tryProcessBuffer {J Doc : Type} (env : GLTFProcessorCalls J Doc)
    (inputBuffer : List Nat) (fileName : List Char) : Except String (List Nat) :=
  if ".gltf".data <:+ lowerL fileName then do
    let json ← env.parseJSON inputBuffer
    let doc ← env.readJSON json
    let doc ← env.applyGeometryOptimizations doc
    let doc ← env.applyTextureOptimizations doc
    env.writeBinary doc
  else if ".glb".data <:+ lowerL fileName then do
    let doc ← env.readBinary inputBuffer
    let doc ← env.applyGeometryOptimizations doc
    let doc ← env.applyTextureOptimizations doc
    env.writeBinary doc
  else Except.error "Unsupported file format"

/-- `GLTFProcessor.processBuffer(inputBuffer, fileName)`: the whole body is
wrapped in `try/catch`, and the catch arm returns the original input buffer. -/
def processBuffer {J Doc : Type} (env : GLTFProcessorCalls J Doc)
    (inputBuffer : List Nat) (fileName : List Char) : List Nat :=
  match tryProcessBuffer env inputBuffer fileName with
  | Except.ok out => out
  | Except.error _ => inputBuffer

/-- C1: `processBuffer` is a total function (it cannot throw), and whenever
any step of load/optimize/serialize raises — a corrupt binary container, an
unparseable JSON body, an unsupported extension, or a failing transform —
the original input bytes are returned unchanged; otherwise the successful
pipeline output is returned. -/
theorem c1_process_buffer_fallback :
    ∀ (J Doc : Type) (env : GLTFProcessorCalls J Doc)
      (inputBuffer : List Nat) (fileName : List Char),
      (∀ msg : String,
        tryProcessBuffer env inputBuffer fileName = Except.error msg →
          processBuffer env inputBuffer fileName = inputBuffer) ∧
      (processBuffer env inputBuffer fileName = inputBuffer ∨
        tryProcessBuffer env inputBuffer fileName
          = Except.ok (processBuffer env inputBuffer fileName)) := by
  intro J Doc env inputBuffer fileName
  cases h : tryProcessBuffer env inputBuffer fileName with
  | ok out => exact ⟨fun msg hmsg => by simp at hmsg, Or.inr (by simp [processBuffer, h])⟩
  | error e => exact ⟨fun _ _ => by simp [processBuffer, h], Or.inl (by simp [processBuffer, h])⟩

/-- Concrete environment in which reading a binary container throws
(a corrupt/unparseable GLB). -/
def corruptGLBCalls : GLTFProcessorCalls Unit Unit :=
  { parseJSON := fun _ => Except.ok ()
    readJSON := fun _ => Except.ok ()
    readBinary := fun _ => Except.error "corrupt binary container"
    applyGeometryOptimizations := fun d => Except.ok d
    applyTextureOptimizations := fun d => Except.ok d
    writeBinary := fun _ => Except.ok [9, 9, 9] }

/-- C1 witness: on a corrupt `model.glb` buffer the pipeline errors and
`processBuffer` returns the original bytes `[0, 255, 7]`. -/
theorem c1_process_buffer_fallback_witness :
    processBuffer corruptGLBCalls [0, 255, 7] "model.glb".data = [0, 255, 7] :=
  (c1_process_buffer_fallback Unit Unit corruptGLBCalls [0, 255, 7] "model.glb".data).1
    "corrupt binary container" rfl

/-- Little-endian 32-bit read, modelling `DataView.getUint32(off, true)`
over the byte buffer (out-of-range bytes default to 0; every verified use
sites inside the modelled 20-byte header region). -/
def readUInt32LE (bytes : List Nat) (off : Nat) : Nat :=
  bytes.getD off 0 + 256 * bytes.getD (off + 1) 0
    + 65536 * bytes.getD (off + 2) 0 + 16777216 * bytes.getD (off + 3) 0

/-- GLB JSON-chunk extraction performed by `trackDependencyFiles` and
`findOriginalDependencies` (`index.ts`): the chunk length is the LE uint32
at byte offset 12 and the chunk bytes start at offset 20
(`gltfBuffer.subarray(20, 20 + jsonChunkLength)`). -/
def glbJsonChunkBytes (bytes : List Nat) : List Nat :=
  (bytes.drop 20).take (readUInt32LE bytes 12)

/-- The shape of a parsed glTF JSON document that dependency tracking and
URI remapping inspect: the optional `uri` strings of `buffers[]` and
`images[]` (`none` models an absent `uri` field). -/
structure GltfJsonDoc where
  buffers : List (Option (List Char))
  images : List (Option (List Char))
  deriving DecidableEq

/-- Simplified `path.posix.join(basePath, uri)` for a dirname base and a
relative URI (no `..`-normalization, which the tracked inputs do not use). -/
def posixJoinL (basePath uri : List Char) : List Char :=
  if basePath = ['.'] then uri else basePath ++ ['/'] ++ uri

/-- One `buffers[]`/`images[]` entry of `trackDependencyFiles`: a missing or
empty `uri` is skipped (JS truthiness), an inline `data:` URI is skipped,
anything else contributes `path.posix.join(basePath, uri)`. -/
def depEntry (basePath : List Char) : Option (List Char) → Option (List Char)
  | some uri =>
    if uri = [] then none
    else if "data:".data <+: uri then none
    else some (posixJoinL basePath uri)
  | none => none

/-- The dependency paths recorded by `trackDependencyFiles` for one parsed
document: buffer entries first, then image entries, as in the source. -/
def trackDependencySet (basePath : List Char) (g : GltfJsonDoc) : List (List Char) :=
  g.buffers.filterMap (depEntry basePath) ++ g.images.filterMap (depEntry basePath)

lemma mem_filterMap_depEntry {basePath d : List Char}
    {l : List (Option (List Char))} (h : d ∈ l.filterMap (depEntry basePath)) :
    ∃ u : List Char, some u ∈ l ∧ ¬("data:".data <+: u) ∧ d = posixJoinL basePath u := by
  obtain ⟨a, ha, hda⟩ := List.mem_filterMap.mp h
  cases a with
  | none => simp [depEntry] at hda
  | some u =>
    by_cases h1 : u = []
    · simp [depEntry, h1] at hda
    · by_cases h2 : "data:".data <+: u
      · simp [depEntry, h1, h2] at hda
      · simp [depEntry, h1, h2] at hda
        exact ⟨u, ha, h2, hda.symm⟩

/-- C8: (a) for a binary-form container consisting of a 20-byte header whose
bytes 12–15 encode the first chunk's length as a little-endian uint32,
followed by the chunk payload and any trailing chunks, the extracted
JSON-chunk bytes are exactly that payload; (b) every path in the returned
dependency set comes from a `buffers[].uri` or `images[].uri` that does not
begin with the inline-data scheme `data:` — inline URIs are excluded. -/
theorem c8_dependency_extraction :
    (∀ header payload rest : List Nat,
      header.length = 20 →
      readUInt32LE header 12 = payload.length →
      glbJsonChunkBytes (header ++ payload ++ rest) = payload) ∧
    (∀ (basePath : List Char) (g : GltfJsonDoc) (d : List Char),
      d ∈ trackDependencySet basePath g →
      ∃ u : List Char,
        (some u ∈ g.buffers ∨ some u ∈ g.images) ∧
        ¬("data:".data <+: u) ∧ d = posixJoinL basePath u) := by
  constructor
  · intro header payload rest hlen hread
    unfold glbJsonChunkBytes
    have h1 : readUInt32LE (header ++ (payload ++ rest)) 12 = readUInt32LE header 12 := by
      unfold readUInt32LE
      rw [List.getD_append _ _ _ _ (by omega), List.getD_append _ _ _ _ (by omega),
        List.getD_append _ _ _ _ (by omega), List.getD_append _ _ _ _ (by omega)]
    rw [List.append_assoc, h1, hread, ← hlen, List.drop_left, List.take_left]
  · intro basePath g d hd
    rcases List.mem_append.mp hd with hb | hi
    · obtain ⟨u, hu, hnd, hj⟩ := mem_filterMap_depEntry hb
      exact ⟨u, Or.inl hu, hnd, hj⟩
    · obtain ⟨u, hu, hnd, hj⟩ := mem_filterMap_depEntry hi
      exact ⟨u, Or.inr hu, hnd, hj⟩

/-- Concrete GLB header for the C8 witness: 12 leading header bytes, the
chunk length 3 encoded little-endian at offset 12, and 4 chunk-type bytes. -/
def c8DemoHeader : List Nat :=
  List.replicate 12 0 ++ [3, 0, 0, 0] ++ [0, 0, 0, 0]

/-- Concrete parsed document for the C8 witness: one real buffer URI and one
inline `data:` image URI. -/
def c8DemoDoc : GltfJsonDoc :=
  { buffers := [some "a.bin".data], images := [some "data:application/octet".data] }

/-- C8 witness: the theorem applied to the concrete header (payload
`[10, 20, 30]`, trailing bytes `[7]`) and to the one tracked dependency of
the concrete document. -/
theorem c8_dependency_extraction_witness :
    glbJsonChunkBytes (c8DemoHeader ++ [10, 20, 30] ++ [7]) = [10, 20, 30] ∧
    (∃ u : List Char,
      (some u ∈ c8DemoDoc.buffers ∨ some u ∈ c8DemoDoc.images) ∧
      ¬("data:".data <+: u) ∧
      "models/a.bin".data = posixJoinL "models".data u) :=
  ⟨c8_dependency_extraction.1 c8DemoHeader [10, 20, 30] [7] (by decide) (by decide),
    c8_dependency_extraction.2 "models".data c8DemoDoc "models/a.bin".data (by decide)⟩

/-- One iteration of the resource-loading loops of
`GLTFProcessor.loadExternalResources` (`gltf-processor.ts`): a missing or
empty `uri` is skipped, a `data:` URI is skipped, and otherwise the sibling
file is read through the loader — on read failure (`none`, the
per-resource `catch`) the resource is skipped, on success
`resources[uri] = bytes` is recorded (modelled as a prepended entry; reads
see the most recent assignment first). -/
def loadResourceStep (loader : List Char → Option (List Nat))
    (acc : List (List Char × List Nat)) (entry : Option (List Char)) :
    List (List Char × List Nat) :=
  match entry with
  | some uri =>
    if uri = [] then acc
    else if "data:".data <+: uri then acc
    else
      match loader uri with
      | some bytes => (uri, bytes) :: acc
      | none => acc
  | none => acc

/-- `GLTFProcessor.loadExternalResources(gltfJson, baseDir)`: fold the
per-resource step over the image entries and then the buffer entries,
starting from an empty resource map; the `baseDir`-relative file read is
the `loader` argument. -/
def loadExternalResources (loader : List Char → Option (List Nat))
    (g : GltfJsonDoc) : List (List Char × List Nat) :=
  (g.images ++ g.buffers).foldl (loadResourceStep loader) []

lemma loadResourceStep_preserves_mem {loader : List Char → Option (List Nat)}
    {p : List Char × List Nat} {acc : List (List Char × List Nat)}
    (h : p ∈ acc) (entry : Option (List Char)) :
    p ∈ loadResourceStep loader acc entry := by
  cases entry with
  | none => exact h
  | some uri =>
    simp only [loadResourceStep]
    split_ifs with h1 h2
    · exact h
    · exact h
    · cases hl : loader uri with
      | some bytes => exact List.mem_cons_of_mem _ h
      | none => exact h

lemma foldl_loadResource_preserves_mem {loader : List Char → Option (List Nat)}
    {p : List Char × List Nat} :
    ∀ (l : List (Option (List Char))) (acc : List (List Char × List Nat)),
      p ∈ acc → p ∈ l.foldl (loadResourceStep loader) acc := by
  intro l
  induction l with
  | nil => exact fun acc h => h
  | cons a l ih =>
    intro acc h
    exact ih _ (loadResourceStep_preserves_mem h a)

lemma foldl_loadResource_not_mem {loader : List Char → Option (List Nat)}
    {uri : List Char} (hnone : loader uri = none) :
    ∀ (l : List (Option (List Char))) (acc : List (List Char × List Nat)),
      uri ∉ acc.map Prod.fst →
      uri ∉ (l.foldl (loadResourceStep loader) acc).map Prod.fst := by
  intro l
  induction l with
  | nil => exact fun acc h => h
  | cons a l ih =>
    intro acc h
    apply ih
    cases a with
    | none => exact h
    | some u =>
      simp only [loadResourceStep]
      split_ifs with h1 h2
      · exact h
      · exact h
      · cases hl : loader u with
        | some bytes =>
          intro hmem
          rcases List.mem_map.mp hmem with ⟨q, hq, hfst⟩
          rcases List.mem_cons.mp hq with rfl | hq2
          · exact absurd hnone (by simp_all)
          · exact h (List.mem_map.mpr ⟨q, hq2, hfst⟩)
        | none => exact h

lemma foldl_loadResource_mem {loader : List Char → Option (List Nat)}
    {uri : List Char} {bytes : List Nat} (hsome : loader uri = some bytes)
    (hne : uri ≠ []) (hnd : ¬("data:".data <+: uri)) :
    ∀ (l : List (Option (List Char))) (acc : List (List Char × List Nat)),
      some uri ∈ l →
      (uri, bytes) ∈ l.foldl (loadResourceStep loader) acc := by
  intro l
  induction l with
  | nil => intro acc h; cases h
  | cons a l ih =>
    intro acc h
    rcases List.mem_cons.mp h with heq | hmem
    · subst heq
      have hstep : (uri, bytes) ∈ loadResourceStep loader acc (some uri) := by
        simp only [loadResourceStep]
        rw [if_neg hne, if_neg hnd, hsome]
        exact List.mem_cons_self _ _
      exact foldl_loadResource_preserves_mem l _ hstep
    · exact ih _ hmem

/-- C6: loading a JSON-form container's external resources is a total
function even when a referenced sibling file is missing or unreadable: a
resource whose read fails is skipped and the returned resource map has no
entry for its URI, while every resource that reads successfully (and is a
non-empty, non-`data:` URI listed in `images[]` or `buffers[]`) is present —
the transform proceeds with the smaller resource set instead of failing. -/
theorem c6_missing_resource_skipped :
    ∀ (loader : List Char → Option (List Nat)) (g : GltfJsonDoc) (uri : List Char),
      (loader uri = none →
        uri ∉ (loadExternalResources loader g).map Prod.fst) ∧
      (∀ bytes : List Nat,
        loader uri = some bytes →
        some uri ∈ g.images ++ g.buffers →
        uri ≠ [] →
        ¬("data:".data <+: uri) →
        (uri, bytes) ∈ loadExternalResources loader g) := by
  intro loader g uri
  constructor
  · intro hnone
    exact foldl_loadResource_not_mem hnone _ _ (by simp)
  · intro bytes hsome hmem hne hnd
    exact foldl_loadResource_mem hsome hne hnd _ _ hmem

/-- Loader for the C6 witness: reading `missing.png` fails, everything else
yields the bytes `[1, 2]`. -/
def c6DemoLoader : List Char → Option (List Nat) :=
  fun u => if u = "missing.png".data then none else some [1, 2]

/-- Document for the C6 witness: `images[0].uri` points at the unreadable
file, `buffers[0].uri` at a readable one. -/
def c6DemoDoc : GltfJsonDoc :=
  { buffers := [some "data.bin".data], images := [some "missing.png".data] }

/-- C6 witness: the theorem applied to the concrete loader and document —
the failing image URI is absent from the resource map and the readable
buffer is present. -/
theorem c6_missing_resource_skipped_witness :
    "missing.png".data ∉ (loadExternalResources c6DemoLoader c6DemoDoc).map Prod.fst ∧
      ("data.bin".data, [1, 2]) ∈ loadExternalResources c6DemoLoader c6DemoDoc :=
  ⟨(c6_missing_resource_skipped c6DemoLoader c6DemoDoc "missing.png".data).1 (by decide),
    (c6_missing_resource_skipped c6DemoLoader c6DemoDoc "data.bin".data).2 [1, 2]
      (by decide) (by decide) (by decide) (by decide)⟩

/-- Strip of one leading `./`, modelling `uri.replace(/^\.\//, '')`. -/
def stripDotSlashL (u : List Char) : List Char :=
  if "./".data <+: u then u.drop 2 else u

/-- Characters after the last slash, modelling `path.posix.basename` on the
slash-free or relative file URIs this pipeline emits (no trailing-slash
handling, which those URIs never need). -/
def basenameL (u : List Char) : List Char :=
  (u.reverse.takeWhile (fun c => decide (c ≠ '/'))).reverse

/-- Removal of a final `.ext` (a dot followed by at least one non-dot
character at the end), modelling `s.replace(/\.[^.]+$/i, '')`: no dot or a
trailing dot leaves the string unchanged. -/
def stripLastExtL (u : List Char) : List Char :=
  match u.reverse.dropWhile (fun c => decide (c ≠ '.')),
      u.reverse.takeWhile (fun c => decide (c ≠ '.')) with
  | [], _ => u
  | _ :: _, [] => u
  | _ :: r, _ :: _ => r.reverse

/-- The per-asset buffer namespace `<basename>_bin/` (`binPrefix` in
`processPublicSourceGLTFFile`, `index.ts`). -/
def binDirL (baseName : List Char) : List Char := baseName ++ "_bin/".data

/-- Image-URI rewrite applied when KTX2 textures were emitted:
`path.posix.basename(uri).replace(/\.[^.]+$/i, '').concat('.ktx2')`. -/
def rewriteImgUriL (u : List Char) : List Char :=
  stripLastExtL (basenameL u) ++ ".ktx2".data

/-- One `json.buffers[]` entry of the URI rewrite in
`processPublicSourceGLTFFile`: every non-empty, non-`data:` buffer URI gains
the `<basename>_bin/` namespace. -/
def rewriteBufEntry (binDir : List Char) (e : Option (List Char)) : Option (List Char) :=
  match e with
  | some u =>
    if u = [] then e
    else if "data:".data <+: u then e
    else some (binDir ++ stripDotSlashL u)
  | none => none

/-- One `json.images[]` entry of the URI rewrite (only performed when KTX2
was emitted): every non-empty, non-`data:` image URI is flattened to a
basis-encoded basename. -/
def rewriteImgEntry (e : Option (List Char)) : Option (List Char) :=
  match e with
  | some u =>
    if u = [] then e
    else if "data:".data <+: u then e
    else some (rewriteImgUriL u)
  | none => none

/-- The JSON URI rewrite of `processPublicSourceGLTFFile`: buffer URIs are
always namespaced; image URIs are rewritten only when `ktx2Emitted`. -/
def rewriteJsonUris (baseName : List Char) (ktx2Emitted : Bool)
    (g : GltfJsonDoc) : GltfJsonDoc :=
  { buffers := g.buffers.map (rewriteBufEntry (binDirL baseName))
    images := if ktx2Emitted then g.images.map rewriteImgEntry else g.images }

/-- Detection of an emitted KTX2 texture:
`Object.keys(resources).some(uri => uri.toLowerCase().endsWith('.ktx2'))`. -/
def ktx2EmittedB (rs : List (List Char × List Nat)) : Bool :=
  rs.any fun p => decide (".ktx2".data <:+ lowerL p.1)

/-- One resource entry of the resource remap in
`processPublicSourceGLTFFile` (locals `bare`/`lower` inlined): `.bin` keys
are namespaced under `<basename>_bin/`, `.ktx2` keys are flattened to their
basename, other keys are namespaced only when KTX2 was emitted. -/
def remapResource (binDir : List Char) (ktx2Emitted : Bool)
    (p : List Char × List Nat) : List Char × List Nat :=
  if ".bin".data <:+ lowerL (stripDotSlashL p.1) then
    (binDir ++ stripDotSlashL p.1, p.2)
  else if ".ktx2".data <:+ lowerL (stripDotSlashL p.1) then
    (basenameL (stripDotSlashL p.1), p.2)
  else if ktx2Emitted then (binDir ++ stripDotSlashL p.1, p.2)
  else (stripDotSlashL p.1, p.2)

/-- The full resource remap (`const remapped = {...}` loop). -/
def remapResources (baseName : List Char) (ktx2Emitted : Bool)
    (rs : List (List Char × List Nat)) : List (List Char × List Nat) :=
  rs.map (remapResource (binDirL baseName) ktx2Emitted)

/-- The URI-namespacing step of `processPublicSourceGLTFFile` for a
JSON-form asset `<baseName>.gltf`: detect emitted KTX2 textures, rewrite the
JSON URIs, and remap the resource map keys. -/
def namespaceOutput (baseName : List Char) (g : GltfJsonDoc)
    (rs : List (List Char × List Nat)) :
    GltfJsonDoc × List (List Char × List Nat) :=
  (rewriteJsonUris baseName (ktx2EmittedB rs) g,
    remapResources baseName (ktx2EmittedB rs) rs)

/-- Document for the C5 counterexample: one basis-encoded image and one that
stayed PNG. -/
def c5CexDoc : GltfJsonDoc :=
  { buffers := [], images := [some "tex.ktx2".data, some "icon.png".data] }

/-- Resources for the C5 counterexample, matching the document's URIs. -/
def c5CexResources : List (List Char × List Nat) :=
  [("tex.ktx2".data, [0]), ("icon.png".data, [1])]

/-- C5 counterexample: with one emitted KTX2 texture alongside one image
that was not basis-encoded, the JSON rewrite turns `icon.png` into
`icon.ktx2` while the resource remap stores that resource under
`foo_bin/icon.png` — the rewritten URI `icon.ktx2` matches no key of the
returned resource map, so the claimed blanket consistency invariant fails. -/
theorem c5_counterexample_dangling_image_uri :
    some "icon.ktx2".data ∈ (namespaceOutput "foo".data c5CexDoc c5CexResources).1.images ∧
      "icon.ktx2".data ∉ (namespaceOutput "foo".data c5CexDoc c5CexResources).2.map Prod.fst ∧
      some "icon.png".data ∈ c5CexDoc.images := by
  decide

lemma takeWhile_append_stop {α : Type} (p : α → Bool) {b : α} (hb : p b = false)
    (A B : List α) : ((A ++ b :: B).takeWhile p) = A.takeWhile p := by
  induction A with
  | nil => simp [List.takeWhile_cons, hb]
  | cons a A ih =>
    by_cases ha : p a
    · simp [List.takeWhile_cons, ha, ih]
    · simp [List.takeWhile_cons, ha]

lemma takeWhile_append_of_all {α : Type} (p : α → Bool) {A : List α}
    (hA : ∀ a ∈ A, p a = true) (B : List α) :
    (A ++ B).takeWhile p = A ++ B.takeWhile p := by
  induction A with
  | nil => simp
  | cons a A ih =>
    have ha := hA a (List.mem_cons_self _ _)
    simp only [List.cons_append, List.takeWhile_cons, ha, if_true]
    rw [ih (fun x hx => hA x (List.mem_cons_of_mem _ hx))]

lemma basenameL_stripDotSlash (u : List Char) :
    basenameL (stripDotSlashL u) = basenameL u := by
  unfold stripDotSlashL
  split_ifs with hp
  · obtain ⟨r, hr⟩ := hp
    rw [← hr]
    show basenameL r = basenameL ('.' :: '/' :: r)
    unfold basenameL
    have h1 : ('.' :: '/' :: r).reverse = r.reverse ++ '/' :: ['.'] := by simp
    rw [h1, takeWhile_append_stop _ (by decide) _ _]
  · rfl

lemma basenameL_append_ktx2 (t : List Char) :
    basenameL (t ++ ".ktx2".data)
      = (t.reverse.takeWhile (fun c => decide (c ≠ '/'))).reverse ++ ".ktx2".data := by
  unfold basenameL
  rw [List.reverse_append]
  rw [takeWhile_append_of_all _ (by decide) _]
  rw [List.reverse_append, List.reverse_reverse]

lemma stripLastExtL_append_ktx2 (x : List Char) :
    stripLastExtL (x ++ ".ktx2".data) = x := by
  unfold stripLastExtL
  rw [List.reverse_append]
  have hrev : (".ktx2".data).reverse = ['2', 'x', 't', 'k', '.'] := rfl
  rw [hrev]
  have hd : List.dropWhile (fun c => decide (c ≠ '.'))
      (['2', 'x', 't', 'k', '.'] ++ x.reverse) = '.' :: x.reverse := by
    simp [List.dropWhile_cons]
  have ht : List.takeWhile (fun c => decide (c ≠ '.'))
      (['2', 'x', 't', 'k', '.'] ++ x.reverse) = ['2', 'x', 't', 'k'] := by
    simp [List.takeWhile_cons]
  rw [hd, ht]
  simp

lemma ktx2_suffix_stripDotSlash {u : List Char} (h : ".ktx2".data <:+ u) :
    ".ktx2".data <:+ stripDotSlashL u := by
  unfold stripDotSlashL
  split_ifs with hp
  · obtain ⟨t, ht⟩ := h
    obtain ⟨r, hr⟩ := hp
    cases t with
    | nil =>
      rw [← ht] at hr
      simp at hr
    | cons c1 t1 =>
      cases t1 with
      | nil =>
        rw [← ht] at hr
        simp at hr
      | cons c2 t2 =>
        refine ⟨t2, ?_⟩
        rw [← ht]
        simp
  · exact h

lemma ktx2_suffix_lowerL {u : List Char} (h : ".ktx2".data <:+ u) :
    ".ktx2".data <:+ lowerL u := by
  obtain ⟨t, ht⟩ := h
  refine ⟨lowerL t, ?_⟩
  rw [← ht]
  unfold lowerL
  rw [List.map_append]
  congr 1

lemma not_bin_of_ktx2 {s : List Char} (h : ".ktx2".data <:+ s) :
    ¬(".bin".data <:+ s) := by
  intro hb
  have h1 : (".ktx2".data).reverse <+: s.reverse := List.reverse_prefix.mpr h
  have h2 : (".bin".data).reverse <+: s.reverse := List.reverse_prefix.mpr hb
  have h3 : (".bin".data).reverse <+: (".ktx2".data).reverse :=
    List.prefix_of_prefix_length_le h2 h1 (by decide)
  obtain ⟨t, ht⟩ := h3
  rw [show (".bin".data).reverse = ['n', 'i', 'b', '.'] from rfl,
    show (".ktx2".data).reverse = ['2', 'x', 't', 'k', '.'] from rfl] at ht
  simp at ht

lemma rewriteImg_eq_basename {u : List Char} (h : ".ktx2".data <:+ u) :
    rewriteImgUriL u = basenameL (stripDotSlashL u) := by
  rw [basenameL_stripDotSlash]
  obtain ⟨t, ht⟩ := h
  rw [← ht]
  unfold rewriteImgUriL
  rw [basenameL_append_ktx2, stripLastExtL_append_ktx2]

/-- C5 amended: the remap is consistent exactly on the shapes the
counterexample does not touch — (i) every resource whose stripped URI ends
in `.bin` is emitted under the key `<baseName>_bin/<uri>`, (ii) every
non-empty non-`data:` buffer URI in the JSON is rewritten to that same key
(so `foo.gltf` with buffer `data.bin` yields matching `foo_bin/data.bin` on
both sides), and (iii) every image resource whose URI already ends in
`.ktx2` is emitted under exactly the flat basename the JSON rewrite
produces; (iv) is the concrete `foo_bin/data.bin` instance.  Images that
were not basis-encoded can dangle when another texture was (the
counterexample), so no blanket guarantee holds for them. -/
theorem c5_amended_remap_consistency :
    ∀ (baseName : List Char) (g : GltfJsonDoc)
      (rs : List (List Char × List Nat)) (u : List Char) (b : List Nat),
      ((u, b) ∈ rs → ".bin".data <:+ lowerL (stripDotSlashL u) →
        (binDirL baseName ++ stripDotSlashL u, b) ∈ (namespaceOutput baseName g rs).2) ∧
      (some u ∈ g.buffers → u ≠ [] → ¬("data:".data <+: u) →
        some (binDirL baseName ++ stripDotSlashL u)
          ∈ (namespaceOutput baseName g rs).1.buffers) ∧
      ((u, b) ∈ rs → ".ktx2".data <:+ u →
        (rewriteImgUriL u, b) ∈ (namespaceOutput baseName g rs).2) ∧
      ((namespaceOutput "foo".data
            { buffers := [some "data.bin".data], images := [] }
            [("data.bin".data, b)]).1.buffers
          = [some "foo_bin/data.bin".data] ∧
        ("foo_bin/data.bin".data, b) ∈ (namespaceOutput "foo".data
            { buffers := [some "data.bin".data], images := [] }
            [("data.bin".data, b)]).2) := by
  intro baseName g rs u b
  refine ⟨?_, ?_, ?_, rfl, ?_⟩
  · intro hmem hbin
    refine List.mem_map.mpr ⟨(u, b), hmem, ?_⟩
    unfold remapResource
    rw [if_pos hbin]
  · intro hmem hne hnd
    refine List.mem_map.mpr ⟨some u, hmem, ?_⟩
    simp only [rewriteBufEntry]
    rw [if_neg hne, if_neg hnd]
  · intro hmem hktx
    have hbare := ktx2_suffix_stripDotSlash hktx
    have hlow := ktx2_suffix_lowerL hbare
    have hnb := not_bin_of_ktx2 hlow
    refine List.mem_map.mpr ⟨(u, b), hmem, ?_⟩
    unfold remapResource
    rw [if_neg hnb, if_pos hlow, rewriteImg_eq_basename hktx]
  · exact List.mem_cons_self _ _

/-- Document and resources for the C5 witness: one buffer and one
basis-encoded texture, both consistently named. -/
def c5WitDoc : GltfJsonDoc :=
  { buffers := [some "data.bin".data], images := [some "tex.ktx2".data] }

/-- Resource map for the C5 witness. -/
def c5WitRes : List (List Char × List Nat) :=
  [("data.bin".data, [7]), ("tex.ktx2".data, [8])]

/-- C5 witness: the amended theorem applied at the concrete asset `foo.gltf`
with buffer `data.bin` and texture `tex.ktx2`. -/
theorem c5_amended_remap_consistency_witness :
    (binDirL "foo".data ++ stripDotSlashL "data.bin".data, [7])
        ∈ (namespaceOutput "foo".data c5WitDoc c5WitRes).2 ∧
      some (binDirL "foo".data ++ stripDotSlashL "data.bin".data)
        ∈ (namespaceOutput "foo".data c5WitDoc c5WitRes).1.buffers ∧
      (rewriteImgUriL "tex.ktx2".data, [8])
        ∈ (namespaceOutput "foo".data c5WitDoc c5WitRes).2 :=
  ⟨(c5_amended_remap_consistency "foo".data c5WitDoc c5WitRes "data.bin".data [7]).1
      (by decide) (by decide),
    (c5_amended_remap_consistency "foo".data c5WitDoc c5WitRes "data.bin".data [7]).2.1
      (by decide) (by decide) (by decide),
    (c5_amended_remap_consistency "foo".data c5WitDoc c5WitRes "tex.ktx2".data [8]).2.2.1
      (by decide) (by decide)⟩

/-- The filename heuristic of `computeTextureRank` (`index.ts`): the regex
`/(normal|roughness|metallic|orm|occlusion|specular|bump|height)/i` as the
list of its lowercase alternatives. -/
def uastcNameWords : List (List Char) :=
  ["normal".data, "roughness".data, "metallic".data, "orm".data,
    "occlusion".data, "specular".data, "bump".data, "height".data]

/-- Case-insensitive test of that regex against an already-lowercased name:
some alternative occurs as a substring. -/
def uastcNameHit (name : List Char) : Bool :=
  uastcNameWords.any fun w => decide (w <:+: name)

/-- The `intended` encoding chosen inside `computeTextureRank`: forced by an
explicit `etc1s`/`uastc` mode, decided by the filename heuristic in
`auto`/`mixed` mode, and left at the `etc1s` initializer otherwise
(`manual`). -/
def intendedBasisMode (mode : TextureCompressionMode) (filename : List Char) :
    BasisMode :=
  match mode with
  | TextureCompressionMode.uastc => BasisMode.uastc
  | TextureCompressionMode.etc1s => BasisMode.etc1s
  | TextureCompressionMode.mixed =>
      if uastcNameHit (lowerL filename) then BasisMode.uastc else BasisMode.etc1s
  | TextureCompressionMode.auto =>
      if uastcNameHit (lowerL filename) then BasisMode.uastc else BasisMode.etc1s
  | TextureCompressionMode.manual => BasisMode.etc1s

/-- `computeTextureRank(filename)` (`index.ts`), with the configured texture
mode and quality passed explicitly: a UASTC-intended texture ranks
`10000 + (4 - uastcLevel) * 100 + etcQ / 255`, an ETC1S-intended one ranks
`etcQ`; higher is better. -/
def computeTextureRank (mode : TextureCompressionMode) (quality : ℚ)
    (filename : List Char) : ℚ :=
  match intendedBasisMode mode filename with
  | BasisMode.uastc =>
      10000 + (4 - ((toUASTCParams quality).quality : ℚ)) * 100
        + ((toETC1SParams quality).quality : ℚ) / 255
  | BasisMode.etc1s => ((toETC1SParams quality).quality : ℚ)

lemma etc1s_quality_bounds (q : ℚ) :
    0 ≤ (toETC1SParams q).quality ∧ (toETC1SParams q).quality ≤ 255 := by
  have h := jsRound_scale_bounds q 255 (by norm_num)
  have hc : (⌈(255 : ℚ)⌉ : ℤ) = 255 := by norm_num
  rw [hc] at h
  exact h

lemma uastc_quality_bounds (q : ℚ) :
    0 ≤ (toUASTCParams q).quality ∧ (toUASTCParams q).quality ≤ 4 := by
  constructor
  · exact jsRound_nonneg (by nlinarith [clamp01_le_one q])
  · apply jsRound_le
    push_cast
    nlinarith [clamp01_nonneg q]

/-- Shared per-build KTX2 cache and bundle state
(`sharedKTXCache` and the in-memory `bundle`, `index.ts`). -/
structure KTXEmitState where
  cache : List (List Char × (ℚ × List Nat))
  bundle : List (List Char × List Nat)

/-- First-match association lookup (`Map.get` / `bundle[path]` observed
through the most recent `set`). -/
def lookupA {α : Type} (key : List Char) : List (List Char × α) → Option α
  | [] => none
  | p :: rest => if p.1 = key then some p.2 else lookupA key rest

/-- The KTX2 emission step of `processPublicSourceGLTFFile` for one
basis-encoded resource at its final bundle path: emit and cache only when
the path is new or the new rank is strictly higher than the cached rank
(`!cached || rank > cached.rank`); otherwise leave cache and bundle
untouched. -/
def emitKTXResource (st : KTXEmitState) (resourcePath : List Char) (rank : ℚ)
    (bytes : List Nat) : KTXEmitState :=
  match lookupA resourcePath st.cache with
  | none =>
    { cache := (resourcePath, (rank, bytes)) :: st.cache
      bundle := (resourcePath, bytes) :: st.bundle }
  | some cached =>
    if cached.1 < rank then
      { cache := (resourcePath, (rank, bytes)) :: st.cache
        bundle := (resourcePath, bytes) :: st.bundle }
    else st

/-- C3: (a) any UASTC-intended (higher-fidelity) encoding outranks any
ETC1S-intended (higher-ratio) encoding, whatever the quality settings; (b) a
cached output path is overwritten exactly when the new rank is strictly
higher — on `rank ≤ cached.rank` the cache and emitted bundle are left
unchanged, on `rank > cached.rank` both now hold the new bytes; (c) for two
emissions to the same fresh output path with distinct ranks, the emitted
bytes are those of the higher-ranked encoding in either processing order. -/
theorem c3_ktx_cache_highest_rank_wins :
    (∀ (m1 m2 : TextureCompressionMode) (q1 q2 : ℚ) (f1 f2 : List Char),
      intendedBasisMode m1 f1 = BasisMode.uastc →
      intendedBasisMode m2 f2 = BasisMode.etc1s →
      computeTextureRank m2 q2 f2 < computeTextureRank m1 q1 f1) ∧
    (∀ (st : KTXEmitState) (p : List Char) (r : ℚ) (b : List Nat) (c : ℚ × List Nat),
      lookupA p st.cache = some c →
      (¬(c.1 < r) → emitKTXResource st p r b = st) ∧
      (c.1 < r →
        lookupA p (emitKTXResource st p r b).bundle = some b ∧
        lookupA p (emitKTXResource st p r b).cache = some (r, b))) ∧
    (∀ (p : List Char) (r1 r2 : ℚ) (b1 b2 : List Nat), r2 < r1 →
      lookupA p
          (emitKTXResource (emitKTXResource ⟨[], []⟩ p r1 b1) p r2 b2).bundle
        = some b1 ∧
      lookupA p
          (emitKTXResource (emitKTXResource ⟨[], []⟩ p r2 b2) p r1 b1).bundle
        = some b1) := by
  refine ⟨?_, ?_, ?_⟩
  · intro m1 m2 q1 q2 f1 f2 h1 h2
    have e1 := etc1s_quality_bounds q1
    have e2 := etc1s_quality_bounds q2
    have u1 := uastc_quality_bounds q1
    have he1 : (0 : ℚ) ≤ ((toETC1SParams q1).quality : ℚ) := by exact_mod_cast e1.1
    have he2 : ((toETC1SParams q2).quality : ℚ) ≤ 255 := by exact_mod_cast e2.2
    have hu1 : ((toUASTCParams q1).quality : ℚ) ≤ 4 := by exact_mod_cast u1.2
    simp only [computeTextureRank, h1, h2]
    nlinarith
  · intro st p r b c hc
    constructor
    · intro hle
      simp only [emitKTXResource, hc]
      rw [if_neg hle]
    · intro hlt
      simp only [emitKTXResource, hc]
      rw [if_pos hlt]
      constructor <;> simp [lookupA]
  · intro p r1 r2 b1 b2 h
    have hn : ¬(r1 < r2) := lt_asymm h
    constructor
    · simp [emitKTXResource, lookupA, hn]
    · simp [emitKTXResource, lookupA, h]

/-- Cache state for the C3 witness: the path `a.ktx2` cached at rank 5. -/
def c3WitState : KTXEmitState :=
  { cache := [("a.ktx2".data, (5, [9]))], bundle := [("a.ktx2".data, [9])] }

/-- C3 witness: the theorem applied at concrete inputs — a `normal`-named
texture outranks a plain one under `auto` mode at the same quality, a
lower-ranked (3 < 5) re-emission leaves the state untouched, and the
higher-fidelity bytes win at a shared fresh path in both orders. -/
theorem c3_ktx_cache_highest_rank_wins_witness :
    computeTextureRank TextureCompressionMode.auto (3/4) "wood.ktx2".data
        < computeTextureRank TextureCompressionMode.auto (3/4) "wood_normal.ktx2".data ∧
      emitKTXResource c3WitState "a.ktx2".data 3 [4] = c3WitState ∧
      lookupA "a.ktx2".data
          (emitKTXResource (emitKTXResource ⟨[], []⟩ "a.ktx2".data 1 [1])
            "a.ktx2".data 0 [2]).bundle = some [1] ∧
      lookupA "a.ktx2".data
          (emitKTXResource (emitKTXResource ⟨[], []⟩ "a.ktx2".data 0 [2])
            "a.ktx2".data 1 [1]).bundle = some [1] :=
  ⟨c3_ktx_cache_highest_rank_wins.1 TextureCompressionMode.auto
      TextureCompressionMode.auto (3/4) (3/4) "wood_normal.ktx2".data
      "wood.ktx2".data (by decide) (by decide),
    (c3_ktx_cache_highest_rank_wins.2.1 c3WitState "a.ktx2".data 3 [4]
        (5, [9]) rfl).1 (by norm_num),
    (c3_ktx_cache_highest_rank_wins.2.2 "a.ktx2".data 1 0 [1] [2] (by norm_num)).1,
    (c3_ktx_cache_highest_rank_wins.2.2 "a.ktx2".data 1 0 [1] [2] (by norm_num)).2⟩

/-- The two bundler commands the plugin distinguishes
(`config.command === 'serve'` versus a build). -/
inductive ViteCommand where
  | serve : ViteCommand
  | build : ViteCommand
  deriving DecidableEq

/-- One per-asset optimization statistic (`interface OptimizationStat`,
`index.ts`). -/
structure OptimizationStat where
  name : List Char
  originalTotalSize : ℕ
  optimizedTotalSize : ℕ
  deriving DecidableEq

/-- The plugin-closure state that `buildStart` reads or writes, together
with the accumulated `optimizationStats` list the claim is about (the
remaining closure state — dependency set, cleanup set, shared cache — is
untouched by `buildStart` in the same way). -/
structure PluginState where
  isInitialized : Bool
  ktxAvailable : Option Bool
  warnedAboutKTX : Bool
  texturesMode : TextureCompressionMode
  optimizationStats : List OptimizationStat
  deriving DecidableEq

/-- The `buildStart` hook (`index.ts`): a no-op in serve mode; otherwise it
probes the KTX CLI once (`ktxAvailable === null`), degrades the texture mode
to `manual` and warns when the probe fails, and initializes the processor
once.  It never touches `optimizationStats`. -/
def buildStart (command : ViteCommand) (probeKTX : Bool) (s : PluginState) :
    PluginState :=
  match command with
  | ViteCommand.serve => s
  | ViteCommand.build =>
    let s1 :=
      match s.ktxAvailable with
      | none =>
        if probeKTX then { s with ktxAvailable := some true }
        else
          { s with
            ktxAvailable := some false
            warnedAboutKTX := true
            texturesMode := TextureCompressionMode.manual }
      | some _ => s
    if s1.isInitialized then s1 else { s1 with isInitialized := true }

/-- Plugin state for the C9 counterexample: one stat accumulated by a
previous build of the same plugin instance. -/
def c9CexState : PluginState :=
  { isInitialized := true, ktxAvailable := some true, warnedAboutKTX := false,
    texturesMode := TextureCompressionMode.auto,
    optimizationStats := [⟨"box.glb".data, 1000, 400⟩] }

/-- C9 counterexample: running `buildStart` for the next build leaves the
previously accumulated stat in place — the list is not reset at build start,
so the close-bundle summary reports every asset processed since the plugin
instance was created, not only the current build's. -/
theorem c9_counterexample_stats_not_cleared :
    (buildStart ViteCommand.build true c9CexState).optimizationStats
        = [⟨"box.glb".data, 1000, 400⟩] ∧
      ([⟨"box.glb".data, 1000, 400⟩] : List OptimizationStat) ≠ [] := by
  decide

/-- C9 amended: `buildStart` never modifies the accumulated stat list in any
mode or state; the list is empty only because each plugin instantiation
creates it empty — within one instance (e.g. watch-mode rebuilds) it
persists across builds. -/
theorem c9_amended_build_start_preserves_stats :
    ∀ (command : ViteCommand) (probeKTX : Bool) (s : PluginState),
      (buildStart command probeKTX s).optimizationStats = s.optimizationStats := by
  intro command probeKTX s
  obtain ⟨init, ktx, warned, mode, stats⟩ := s
  cases command <;> cases ktx <;> cases probeKTX <;> cases init <;> rfl
